import Mathlib

/-!
# Verification of the team-formation core of `game-team-system`

Shallow embedding of the team-formation and membership-consistency engine
of `src/app.py`.  The Streamlit session state holds two structures: a
players table (columns 游戏ID / 游戏职业 / 已选择, i.e. game id, game
class, selected flag) and a list of teams (fields 队长 / 成员, i.e.
captain and member list).  We model the players table as a list of
`Player` rows and the team list as a list of `Team`.

The operations embedded here:
* `create_team` — `create_team(team_members, captain)` in `app.py`
  (size check, existence check, disjointness check, append, flag update,
  persistence flush).  The UI entry point `formTeam` calls it with
  `[captain] + members`, as `main_page` does in the source.
* `disbandTeam` — the disband branch of `admin_panel` (clear the flags of
  the team's members, pop the team, flush persistence).
* `resetAllSelections` — the "重置选择状态" admin action
  (`players['已选择'] = False`).

Persistence (`save_data_to_github`) is an external collaborator; its
outcome is modelled by a boolean `persistOk` parameter.  On persistence
failure the source logs an error and returns `False`, leaving the
in-memory mutation in place, which the embedding reproduces faithfully.
-/

/-- A row of the players table: 游戏ID, 游戏职业, 已选择. -/
structure Player where
  gameId : String
  gameClass : String
  selected : Bool
deriving Repr, DecidableEq

/-- A formed team: 队长 and 成员 (ordered member list, captain first). -/
structure Team where
  captain : String
  members : List String
deriving Repr, DecidableEq

/-- The in-memory session state: players table and team list. -/
structure AppState where
  players : List Player
  teams : List Team
deriving Repr, DecidableEq

/-- `member in st.session_state.players['游戏ID'].values`. -/
def playerExists (players : List Player) (id : String) : Bool :=
  players.any (fun p => p.gameId = id)

/-- The existence-check loop of `create_team`: returns the first submitted
id that is not in the players table (`for member in team_members: if member
not in ... : st.error(f"玩家 {member} 不存在!")`). -/
def firstMissing (players : List Player) : List String → Option String
  | [] => none
  | m :: rest => if playerExists players m then firstMissing players rest else some m

/-- `selected_players = {m for team in st.session_state.teams for m in team['成员']}`:
all ids appearing in some existing team's member list. -/
def assignedIds (teams : List Team) : List String :=
  teams.flatMap Team.members

/-- The pandas bulk flag update
`players.loc[players['游戏ID'].isin(ids), '已选择'] = v`. -/
def setSelected (players : List Player) (ids : List String) (v : Bool) : List Player :=
  players.map (fun p => if p.gameId ∈ ids then { p with selected := v } else p)

/-- Outcome of a `create_team` call, distinguished by the message the
source reports: the three validation errors, the persistence failure
(`save_data_to_github()` returned `False`), and success. -/
inductive CreateTeamResult where
  | sizeError
  | unknownPlayerError (id : String)
  | alreadyAssignedError
  | persistFailed
  | success
deriving Repr, DecidableEq

/-- `create_team(team_members, captain)` of `app.py`: size check
(`len(team_members) != 6`), existence check, disjointness check against
members of existing teams, then append `{'队长': captain, '成员':
team_members}`, set the flags of all submitted ids to true, and flush to
GitHub.  The flush outcome is the `persistOk` parameter; on flush failure
the source returns `False` with the mutation already applied. -/
def create_team (st : AppState) (persistOk : Bool) (team_members : List String)
    (captain : String) : AppState × CreateTeamResult :=
  if team_members.length ≠ 6 then
    (st, .sizeError)
  else
    match firstMissing st.players team_members with
    | some m => (st, .unknownPlayerError m)
    | none =>
      if team_members.any (fun m => decide (m ∈ assignedIds st.teams)) then
        (st, .alreadyAssignedError)
      else
        let st' : AppState :=
          { st with
            teams := st.teams ++ [{ captain := captain, members := team_members }],
            players := setSelected st.players team_members true }
        if persistOk then (st', .success) else (st', .persistFailed)

/-- The UI entry point: `main_page` submits `create_team([captain] + selected,
captain)`, so the submitted member list is the captain followed by the
chosen members. -/
def formTeam (st : AppState) (persistOk : Bool) (captain : String)
    (members : List String) : AppState × CreateTeamResult :=
  create_team st persistOk (captain :: members) captain

/-- The disband branch of `admin_panel` for the team displayed at 1-based
index `i`: clear the flags of that team's members
(`players.loc[players['游戏ID'].isin(team['成员']), '已选择'] = False`),
then `teams.pop(i-1)`.  The button only exists for indices produced by
`enumerate(st.session_state.teams, 1)`, so an out-of-range index has no
team to act on and the state is left unchanged. -/
def disbandTeam (st : AppState) (i : Nat) : AppState :=
  match st.teams.get? (i - 1) with
  | none => st
  | some t =>
    { st with
      players := setSelected st.players t.members false,
      teams := st.teams.eraseIdx (i - 1) }

/-- The admin bulk action `st.session_state.players['已选择'] = False`. -/
def resetAllSelections (st : AppState) : AppState :=
  { st with players := st.players.map (fun p => { p with selected := false }) }

/-- An interaction with the team registry: a `formTeam` submission or a
disband click. -/
inductive Op where
  | form (persistOk : Bool) (captain : String) (members : List String)
  | disband (i : Nat)
deriving Repr, DecidableEq

def applyOp (st : AppState) : Op → AppState
  | .form ok c ms => (formTeam st ok c ms).1
  | .disband i => disbandTeam st i

/-- Run a sequence of `formTeam` / `disbandTeam` calls. -/
def runOps (st : AppState) (ops : List Op) : AppState :=
  ops.foldl applyOp st

/-- Pairwise disjointness of the member lists of the teams in the registry. -/
def TeamsDisjoint (teams : List Team) : Prop :=
  teams.Pairwise (fun t u => ∀ m, m ∈ t.members → m ∉ u.members)

/-! ## Basic lemmas about the embedded operations -/

theorem mem_assignedIds {teams : List Team} {m : String} :
    m ∈ assignedIds teams ↔ ∃ t ∈ teams, m ∈ t.members := by
  simp [assignedIds]

theorem firstMissing_eq_none {players : List Player} {ids : List String} :
    firstMissing players ids = none ↔ ∀ m ∈ ids, playerExists players m = true := by
  induction ids with
  | nil => simp [firstMissing]
  | cons m rest ih =>
    by_cases h : playerExists players m <;> simp [firstMissing, h, ih]

theorem length_setSelected (players : List Player) (ids : List String) (v : Bool) :
    (setSelected players ids v).length = players.length :=
  List.length_map _ _

theorem getElem?_setSelected (players : List Player) (ids : List String) (v : Bool) (n : Nat) :
    (setSelected players ids v)[n]? =
      players[n]?.map (fun p => if p.gameId ∈ ids then { p with selected := v } else p) :=
  List.getElem?_map _ _ _

theorem playerExists_setSelected (players : List Player) (ids : List String) (v : Bool)
    (m : String) : playerExists (setSelected players ids v) m = playerExists players m := by
  induction players with
  | nil => rfl
  | cons p ps ih =>
    simp only [setSelected, List.map_cons, playerExists, List.any_cons] at ih ⊢
    by_cases h : p.gameId ∈ ids <;> simp [h, ih]

/-! ## Control-flow characterization of `create_team` -/

theorem create_team_sizeError {st : AppState} {ok : Bool} {tm : List String} {c : String}
    (h : tm.length ≠ 6) : create_team st ok tm c = (st, .sizeError) := by
  simp [create_team, h]

theorem create_team_unknown {st : AppState} {ok : Bool} {tm : List String} {c m : String}
    (h6 : tm.length = 6) (hm : firstMissing st.players tm = some m) :
    create_team st ok tm c = (st, .unknownPlayerError m) := by
  simp [create_team, h6, hm]

theorem create_team_assigned {st : AppState} {ok : Bool} {tm : List String} {c : String}
    (h6 : tm.length = 6) (hm : firstMissing st.players tm = none)
    (ha : tm.any (fun m => decide (m ∈ assignedIds st.teams)) = true) :
    create_team st ok tm c = (st, .alreadyAssignedError) := by
  simp [create_team, h6, hm, ha]

theorem create_team_valid {st : AppState} {ok : Bool} {tm : List String} {c : String}
    (h6 : tm.length = 6) (hm : firstMissing st.players tm = none)
    (ha : tm.any (fun m => decide (m ∈ assignedIds st.teams)) = false) :
    create_team st ok tm c =
      ({ st with
          teams := st.teams ++ [{ captain := c, members := tm }],
          players := setSelected st.players tm true },
        if ok then .success else .persistFailed) := by
  cases ok <;> simp [create_team, h6, hm, ha]

/-! ## C1: pairwise disjointness of team member lists is an invariant -/

theorem teamsDisjoint_create_team {st : AppState} (ok : Bool) (tm : List String) (c : String)
    (h : TeamsDisjoint st.teams) : TeamsDisjoint (create_team st ok tm c).1.teams := by
  by_cases h6 : tm.length = 6
  · cases hm : firstMissing st.players tm with
    | some m => rw [create_team_unknown h6 hm]; exact h
    | none =>
      cases ha : tm.any (fun m => decide (m ∈ assignedIds st.teams)) with
      | false =>
        rw [create_team_valid h6 hm ha]
        have hall : ∀ x ∈ tm, x ∉ assignedIds st.teams := by
          intro x hx hmem
          have : tm.any (fun m => decide (m ∈ assignedIds st.teams)) = true :=
            List.any_eq_true.mpr ⟨x, hx, by simpa⟩
          rw [ha] at this
          exact Bool.noConfusion this
        show TeamsDisjoint (st.teams ++ [{ captain := c, members := tm }])
        rw [TeamsDisjoint, List.pairwise_append]
        refine ⟨h, List.pairwise_singleton _ _, ?_⟩
        intro t ht u hu m hmt hmu
        have hu' : u = { captain := c, members := tm } := by simpa using hu
        subst hu'
        exact hall m hmu (mem_assignedIds.mpr ⟨t, ht, hmt⟩)
      | true => rw [create_team_assigned h6 hm ha]; exact h
  · rw [create_team_sizeError h6]; exact h

theorem teamsDisjoint_disbandTeam {st : AppState} (i : Nat)
    (h : TeamsDisjoint st.teams) : TeamsDisjoint (disbandTeam st i).teams := by
  unfold disbandTeam
  cases hg : st.teams.get? (i - 1) with
  | none => exact h
  | some t =>
    exact List.Pairwise.sublist (List.eraseIdx_sublist _ _) h

/-- C1: starting from any state whose teams have pairwise-disjoint member
lists, after any sequence of `formTeam` / `disbandTeam` calls every pair of
distinct teams in the registry still has disjoint member lists. -/
theorem c1_teams_pairwise_disjoint (st : AppState) (ops : List Op)
    (h : TeamsDisjoint st.teams) : TeamsDisjoint (runOps st ops).teams := by
  induction ops generalizing st with
  | nil => exact h
  | cons op rest ih =>
    cases op with
    | form ok c ms => exact ih _ (teamsDisjoint_create_team ok (c :: ms) c h)
    | disband i => exact ih _ (teamsDisjoint_disbandTeam i h)

/-- A six-player roster used by the concrete witnesses below. -/
def samplePlayers : List Player :=
  [⟨"P1", "武当", false⟩, ⟨"P2", "峨眉", false⟩, ⟨"P3", "丐帮", false⟩,
   ⟨"P4", "大理", false⟩, ⟨"P5", "天山", false⟩, ⟨"P6", "明教", false⟩]

/-- Witness for C1 at a concrete input: forming one full team from a
six-player roster and then disbanding it keeps the registry pairwise
disjoint. -/
theorem c1_teams_pairwise_disjoint_witness :
    TeamsDisjoint (runOps ⟨samplePlayers, []⟩
      [Op.form true "P1" ["P2", "P3", "P4", "P5", "P6"], Op.disband 1]).teams :=
  c1_teams_pairwise_disjoint _ _ List.Pairwise.nil

/-! ## C2: successful `formTeam` sets the submitted flags and nothing else -/

theorem create_team_success_inv {st : AppState} {ok : Bool} {tm : List String} {c : String}
    (h : (create_team st ok tm c).2 = .success) :
    ok = true ∧ tm.length = 6 ∧ firstMissing st.players tm = none ∧
    tm.any (fun m => decide (m ∈ assignedIds st.teams)) = false ∧
    (create_team st ok tm c).1 =
      { st with
        teams := st.teams ++ [{ captain := c, members := tm }],
        players := setSelected st.players tm true } := by
  by_cases h6 : tm.length = 6
  · cases hm : firstMissing st.players tm with
    | some m => rw [create_team_unknown h6 hm] at h; simp at h
    | none =>
      cases ha : tm.any (fun m => decide (m ∈ assignedIds st.teams)) with
      | false =>
        cases ok with
        | false => rw [create_team_valid h6 hm ha] at h; simp at h
        | true =>
          rw [create_team_valid h6 hm ha]
          exact ⟨rfl, h6, rfl, rfl, rfl⟩
      | true => rw [create_team_assigned h6 hm ha] at h; simp at h
  · rw [create_team_sizeError h6] at h; simp at h

/-- C2: when a `formTeam` submission succeeds, every submitted member
(captain included) has its selected flag true in the resulting players
table, and every row whose id is not among the submitted ids is exactly
unchanged. -/
theorem c2_success_flags_and_frame (st : AppState) (ok : Bool) (c : String)
    (ms : List String) (h : (formTeam st ok c ms).2 = .success) :
    (∀ m ∈ c :: ms, ∃ p ∈ (formTeam st ok c ms).1.players,
        p.gameId = m ∧ p.selected = true)
    ∧ (∀ (n : Nat) (p : Player), st.players[n]? = some p → p.gameId ∉ c :: ms →
        (formTeam st ok c ms).1.players[n]? = some p) := by
  unfold formTeam at h ⊢
  obtain ⟨-, -, hm, -, hst⟩ := create_team_success_inv h
  constructor
  · intro m hmem
    have hex : playerExists st.players m = true :=
      firstMissing_eq_none.mp hm m hmem
    obtain ⟨p, hp, hpm⟩ := List.any_eq_true.mp hex
    have hpm' : p.gameId = m := by simpa using hpm
    refine ⟨{ p with selected := true }, ?_, hpm', rfl⟩
    rw [hst]
    show _ ∈ setSelected st.players (c :: ms) true
    have hrw : (if p.gameId ∈ c :: ms then { p with selected := true } else p)
        = { p with selected := true } := by
      rw [if_pos (hpm' ▸ hmem)]
    exact hrw ▸ List.mem_map_of_mem _ hp
  · intro n p hget hnot
    rw [hst]
    show (setSelected st.players (c :: ms) true)[n]? = some p
    rw [getElem?_setSelected, hget, Option.map_some', if_neg hnot]

/-- The six-player, no-team starting state used by the concrete witnesses. -/
def st0 : AppState := ⟨samplePlayers, []⟩

/-- Witness for C2: the successful scenario-A submission from `st0`. -/
theorem c2_success_flags_and_frame_witness :
    (∀ m ∈ "P1" :: ["P2", "P3", "P4", "P5", "P6"],
        ∃ p ∈ (formTeam st0 true "P1" ["P2", "P3", "P4", "P5", "P6"]).1.players,
          p.gameId = m ∧ p.selected = true)
    ∧ (∀ (n : Nat) (p : Player), st0.players[n]? = some p →
        p.gameId ∉ "P1" :: ["P2", "P3", "P4", "P5", "P6"] →
        (formTeam st0 true "P1" ["P2", "P3", "P4", "P5", "P6"]).1.players[n]? = some p) :=
  c2_success_flags_and_frame st0 true "P1" ["P2", "P3", "P4", "P5", "P6"] (by decide)

/-! ## C3: persistence failure leaves the in-memory mutation applied -/

/-- C3 (code behaviour at the failing input): for a submission that passes
every validation check, when the persistence flush fails `create_team`
reports the failure but the team stays appended and the submitted flags
stay set — the in-memory state is not rolled back to the pre-call state,
contradicting the transactional behaviour the specification requires. -/
theorem c3_persist_failure_keeps_mutation :
    (formTeam st0 false "P1" ["P2", "P3", "P4", "P5", "P6"]).2 = .persistFailed
    ∧ (formTeam st0 false "P1" ["P2", "P3", "P4", "P5", "P6"]).1 ≠ st0
    ∧ (formTeam st0 false "P1" ["P2", "P3", "P4", "P5", "P6"]).1.teams =
        [{ captain := "P1", members := ["P1", "P2", "P3", "P4", "P5", "P6"] }]
    ∧ (∀ p ∈ (formTeam st0 false "P1" ["P2", "P3", "P4", "P5", "P6"]).1.players,
        p.selected = true) := by decide

/-! ## C4: validation failures leave the state unchanged -/

/-- Does a `create_team` outcome come from one of the three validation
checks the source performs (size, existence, disjointness)? -/
def isValidationErr : CreateTeamResult → Bool
  | .sizeError => true
  | .unknownPlayerError _ => true
  | .alreadyAssignedError => true
  | .persistFailed => false
  | .success => false

/-- A five-player roster whose captain reappears in the member list. -/
def stDup : AppState :=
  ⟨[⟨"Q1", "星宿", false⟩, ⟨"Q2", "玄机", false⟩, ⟨"Q3", "无尘", false⟩,
    ⟨"Q4", "逍遥", false⟩, ⟨"Q5", "明教", false⟩], []⟩

/-- C4 counterexample: a submission whose only flaw is the captain
repeated inside the member list (size, existence and cross-team
disjointness all hold) is NOT rejected: `formTeam` returns success and
the state changes, so claims over the rule list including the
duplicate-captain rule fail on the code. -/
theorem c4_counterexample_duplicate_captain_accepted :
    "Q1" ∈ ["Q1", "Q2", "Q3", "Q4", "Q5"]
    ∧ (formTeam stDup true "Q1" ["Q1", "Q2", "Q3", "Q4", "Q5"]).2 = .success
    ∧ (formTeam stDup true "Q1" ["Q1", "Q2", "Q3", "Q4", "Q5"]).1 ≠ stDup := by decide

/-- C4 (amended to the checks the source performs): every submission that
violates the size check, the existence check or the disjointness check
gets a validation error back and leaves the players table and the team
list exactly unchanged. -/
theorem c4_validation_error_leaves_state (st : AppState) (ok : Bool) (c : String)
    (ms : List String)
    (h : (c :: ms).length ≠ 6 ∨ (∃ m ∈ c :: ms, playerExists st.players m = false)
        ∨ ∃ m ∈ c :: ms, m ∈ assignedIds st.teams) :
    isValidationErr (formTeam st ok c ms).2 = true ∧ (formTeam st ok c ms).1 = st := by
  unfold formTeam
  by_cases h6 : (c :: ms).length = 6
  · cases hm : firstMissing st.players (c :: ms) with
    | some m => rw [create_team_unknown h6 hm]; exact ⟨rfl, rfl⟩
    | none =>
      cases ha : (c :: ms).any (fun m => decide (m ∈ assignedIds st.teams)) with
      | true => rw [create_team_assigned h6 hm ha]; exact ⟨rfl, rfl⟩
      | false =>
        exfalso
        rcases h with h | ⟨m, hmem, hex⟩ | ⟨m, hmem, hass⟩
        · exact h h6
        · rw [firstMissing_eq_none.mp hm m hmem] at hex; exact Bool.noConfusion hex
        · have hcon : (c :: ms).any (fun m => decide (m ∈ assignedIds st.teams)) = true :=
            List.any_eq_true.mpr ⟨m, hmem, by simpa⟩
          rw [ha] at hcon
          exact Bool.noConfusion hcon
  · rw [create_team_sizeError h6]; exact ⟨rfl, rfl⟩

/-- Witness for the amended C4: the scenario-D empty submission fails the
size check and leaves `st0` untouched. -/
theorem c4_validation_error_leaves_state_witness :
    isValidationErr (formTeam st0 true "P1" []).2 = true
    ∧ (formTeam st0 true "P1" []).1 = st0 :=
  c4_validation_error_leaves_state st0 true "P1" [] (Or.inl (by decide))

/-! ## C5: the validation checks run in a fixed order -/

/-- C5: `create_team` checks size first, existence second and
disjointness last, so the reported error is always the earliest violated
rule: a wrong-size submission reports `sizeError` whatever else is wrong;
a six-id submission whose first missing id is `m` reports
`unknownPlayerError m` even when assigned ids are present; and a six-id
submission of existing ids reports `alreadyAssignedError` when some id is
already in a team. -/
theorem c5_validation_order (st : AppState) (ok : Bool) (c : String) (ms : List String) :
    ((c :: ms).length ≠ 6 → (formTeam st ok c ms).2 = .sizeError)
    ∧ ((c :: ms).length = 6 → ∀ m : String, firstMissing st.players (c :: ms) = some m →
        (formTeam st ok c ms).2 = .unknownPlayerError m)
    ∧ ((c :: ms).length = 6 → firstMissing st.players (c :: ms) = none →
        (c :: ms).any (fun m => decide (m ∈ assignedIds st.teams)) = true →
        (formTeam st ok c ms).2 = .alreadyAssignedError) := by
  refine ⟨fun h6 => ?_, fun h6 m hm => ?_, fun h6 hm ha => ?_⟩
  · unfold formTeam; rw [create_team_sizeError h6]
  · unfold formTeam; rw [create_team_unknown h6 hm]
  · unfold formTeam; rw [create_team_assigned h6 hm ha]

/-- The state after scenario A: one full team, its six players flagged. -/
def stAssigned : AppState :=
  ⟨setSelected samplePlayers ["P1", "P2", "P3", "P4", "P5", "P6"] true,
   [{ captain := "P1", members := ["P1", "P2", "P3", "P4", "P5", "P6"] }]⟩

/-- Witness for C5: from `stAssigned`, a wrong-size submission with an
unknown and an assigned id reports `sizeError`; a six-id submission with
the unknown id `XX` and five assigned ids reports
`unknownPlayerError "XX"`; six existing but assigned ids report
`alreadyAssignedError`. -/
theorem c5_validation_order_witness :
    (formTeam stAssigned true "P1" ["XX"]).2 = .sizeError
    ∧ (formTeam stAssigned true "P1" ["P2", "P3", "P4", "P5", "XX"]).2 =
        .unknownPlayerError "XX"
    ∧ (formTeam stAssigned true "P1" ["P2", "P3", "P4", "P5", "P6"]).2 =
        .alreadyAssignedError :=
  ⟨(c5_validation_order stAssigned true "P1" ["XX"]).1 (by decide),
   (c5_validation_order stAssigned true "P1" ["P2", "P3", "P4", "P5", "XX"]).2.1
     (by decide) "XX" (by decide),
   (c5_validation_order stAssigned true "P1" ["P2", "P3", "P4", "P5", "P6"]).2.2
     (by decide) (by decide) (by decide)⟩

/-! ## C6: the size check fires exactly when `1 + |members|` is not six -/

/-- C6: `formTeam` reports `sizeError` if and only if the submitted list
(captain plus members) does not have exactly six entries; in particular
an empty member list is rejected with `sizeError`. -/
theorem c6_sizeError_iff (st : AppState) (ok : Bool) (c : String) (ms : List String) :
    ((formTeam st ok c ms).2 = .sizeError ↔ 1 + ms.length ≠ 6)
    ∧ (formTeam st ok c []).2 = .sizeError := by
  constructor
  · constructor
    · intro h
      by_contra h6
      have h6' : (c :: ms).length = 6 := by simp only [List.length_cons]; omega
      unfold formTeam at h
      cases hm : firstMissing st.players (c :: ms) with
      | some m => rw [create_team_unknown h6' hm] at h; simp at h
      | none =>
        cases ha : (c :: ms).any (fun m => decide (m ∈ assignedIds st.teams)) with
        | true => rw [create_team_assigned h6' hm ha] at h; simp at h
        | false =>
          rw [create_team_valid h6' hm ha] at h
          cases ok <;> simp at h
    · intro h
      have h6 : (c :: ms).length ≠ 6 := by simp only [List.length_cons]; omega
      unfold formTeam
      rw [create_team_sizeError h6]
  · show (create_team st ok (c :: []) c).2 = .sizeError
    rw [create_team_sizeError (by simp)]

/-! ## C7: the duplicate-captain submission the spec requires rejected -/

/-- C7 (code behaviour at the failing input): a submission whose captain
appears again inside the member list passes all three checks that
`create_team` performs and creates a team containing the captain twice;
the source has no within-submission uniqueness check, so the
duplicate-captain submission is not rejected. -/
theorem c7_duplicate_captain_not_rejected :
    "P1" ∈ ["P1", "P2", "P3", "P4", "P5"]
    ∧ (formTeam st0 true "P1" ["P1", "P2", "P3", "P4", "P5"]).2 = .success
    ∧ (formTeam st0 true "P1" ["P1", "P2", "P3", "P4", "P5"]).1.teams =
        [{ captain := "P1", members := ["P1", "P1", "P2", "P3", "P4", "P5"] }] := by decide

/-! ## C8: disband followed by reforming the same team round-trips -/

theorem any_mem_assigned_eq_false {tm : List String} {teams : List Team}
    (h : ∀ m ∈ tm, m ∉ assignedIds teams) :
    tm.any (fun m => decide (m ∈ assignedIds teams)) = false := by
  cases hb : tm.any (fun m => decide (m ∈ assignedIds teams)) with
  | false => rfl
  | true =>
    obtain ⟨m, hm, hmem⟩ := List.any_eq_true.mp hb
    exact (h m hm (of_decide_eq_true hmem)).elim

theorem setSelected_false_true (players : List Player) (ids : List String)
    (h : ∀ p ∈ players, p.gameId ∈ ids → p.selected = true) :
    setSelected (setSelected players ids false) ids true = players := by
  induction players with
  | nil => rfl
  | cons p ps ih =>
    obtain ⟨a, b, s⟩ := p
    have hps := ih (fun q hq hin => h q (List.mem_cons_of_mem _ hq) hin)
    simp only [setSelected, List.map_cons] at hps ⊢
    by_cases hid : a ∈ ids
    · have hs : s = true := h ⟨a, b, s⟩ (List.mem_cons_self _ _) hid
      subst hs
      simp [hid, hps]
    · simp [hid, hps]

theorem disbandTeam_eq {st : AppState} {i : Nat} {t : Team}
    (hget : st.teams.get? (i - 1) = some t) :
    disbandTeam st i =
      { st with
        players := setSelected st.players t.members false,
        teams := st.teams.eraseIdx (i - 1) } := by
  unfold disbandTeam
  rw [hget]

/-- C8: for a team `t` sitting at 1-based index `i` whose stored member
list is its captain followed by the members `ms`, has six entries, whose
players all exist in the roster with their selected flags set, and whose
members appear in no other team, disbanding it and immediately
resubmitting the same captain and members succeeds, and the players
table (all selected flags included) returns exactly to its pre-disband
state. -/
theorem c8_disband_reform_roundtrip (st : AppState) (i : Nat) (t : Team) (ms : List String)
    (hget : st.teams.get? (i - 1) = some t)
    (hcm : t.members = t.captain :: ms)
    (h6 : t.members.length = 6)
    (hex : ∀ m ∈ t.members, playerExists st.players m = true)
    (hdisj : ∀ m ∈ t.members, m ∉ assignedIds (st.teams.eraseIdx (i - 1)))
    (hsel : ∀ p ∈ st.players, p.gameId ∈ t.members → p.selected = true) :
    (formTeam (disbandTeam st i) true t.captain ms).2 = .success
    ∧ (formTeam (disbandTeam st i) true t.captain ms).1.players = st.players := by
  have hst1 := disbandTeam_eq hget
  have h6' : (t.captain :: ms).length = 6 := by rw [← hcm]; exact h6
  have hfm : firstMissing (disbandTeam st i).players (t.captain :: ms) = none := by
    rw [hst1]
    refine firstMissing_eq_none.mpr ?_
    intro m hm
    show playerExists (setSelected st.players t.members false) m = true
    rw [playerExists_setSelected]
    exact hex m (hcm ▸ hm)
  have hassign : (t.captain :: ms).any
      (fun m => decide (m ∈ assignedIds (disbandTeam st i).teams)) = false := by
    rw [hst1]
    exact any_mem_assigned_eq_false (fun m hm => hdisj m (hcm ▸ hm))
  unfold formTeam
  rw [create_team_valid h6' hfm hassign]
  refine ⟨rfl, ?_⟩
  show setSelected (disbandTeam st i).players (t.captain :: ms) true = st.players
  rw [hst1]
  show setSelected (setSelected st.players t.members false) (t.captain :: ms) true = st.players
  rw [← hcm]
  exact setSelected_false_true st.players t.members hsel

/-- Witness for C8: disbanding the scenario-A team of `stAssigned` and
resubmitting the same captain and members succeeds and restores the
players table. -/
theorem c8_disband_reform_roundtrip_witness :
    (formTeam (disbandTeam stAssigned 1) true "P1" ["P2", "P3", "P4", "P5", "P6"]).2 =
        .success
    ∧ (formTeam (disbandTeam stAssigned 1) true "P1" ["P2", "P3", "P4", "P5", "P6"]).1.players =
        stAssigned.players :=
  c8_disband_reform_roundtrip stAssigned 1
    { captain := "P1", members := ["P1", "P2", "P3", "P4", "P5", "P6"] }
    ["P2", "P3", "P4", "P5", "P6"]
    (by decide) (by decide) (by decide) (by decide) (by decide) (by decide)

/-! ## C9: the appended team is the captain followed by the members -/

/-- C9: a successful `formTeam` call appends exactly the team whose member
list is the captain followed by the submitted members, so every team of
the resulting registry is either a pre-existing team or has its captain
as the first entry of its member list. -/
theorem c9_new_team_captain_first (st : AppState) (ok : Bool) (c : String) (ms : List String)
    (h : (formTeam st ok c ms).2 = .success) :
    (formTeam st ok c ms).1.teams = st.teams ++ [{ captain := c, members := c :: ms }]
    ∧ ∀ t ∈ (formTeam st ok c ms).1.teams,
        t ∈ st.teams ∨ t.members.head? = some t.captain := by
  unfold formTeam at h ⊢
  obtain ⟨-, -, -, -, hst⟩ := create_team_success_inv h
  rw [hst]
  refine ⟨rfl, ?_⟩
  intro t ht
  rcases List.mem_append.mp ht with h1 | h2
  · exact Or.inl h1
  · right
    have ht' : t = { captain := c, members := c :: ms } := by simpa using h2
    subst ht'
    rfl

/-- Witness for C9: the scenario-A submission from `st0`. -/
theorem c9_new_team_captain_first_witness :
    (formTeam st0 true "P1" ["P2", "P3", "P4", "P5", "P6"]).1.teams =
        st0.teams ++ [{ captain := "P1", members := ["P1", "P2", "P3", "P4", "P5", "P6"] }]
    ∧ ∀ t ∈ (formTeam st0 true "P1" ["P2", "P3", "P4", "P5", "P6"]).1.teams,
        t ∈ st0.teams ∨ t.members.head? = some t.captain :=
  c9_new_team_captain_first st0 true "P1" ["P2", "P3", "P4", "P5", "P6"] (by decide)

/-! ## C10: the admin reset is idempotent -/

/-- C10: `resetAllSelections` is idempotent: applying it twice yields
exactly the same players table and team list as applying it once. -/
theorem c10_reset_idempotent (st : AppState) :
    resetAllSelections (resetAllSelections st) = resetAllSelections st := by
  unfold resetAllSelections
  congr 1
  rw [List.map_map]
  refine List.map_congr_left ?_
  intro p _
  rfl
